import Mathlib

/-!
Verification of the neon-db-backup-to-googledrive pipeline.

This development shallowly embeds the TypeScript sources:
  - `src/neon-discovery.ts` (two versions: a configurable-days activity
    window and a fixed-23-hour variant) — `NeonDiscoveryService`,
  - `src/backup-service.ts` — `DatabaseBackupService`,
  - `src/google-drive-service.ts` — `GoogleDriveService`,
  - the OAuth Drive client — `GoogleDriveOAuthService`,
  - `src/index.ts` — `NeonBackupOrchestrator`.

Modelling conventions:
  - JavaScript `Date` values are epoch milliseconds (`Int`); an Invalid
    Date (whose time value is NaN) is `none` in `Option Int`.  In
    JavaScript, `new Date(s)` on an unparseable string returns an Invalid
    Date and never throws, and any relational comparison involving NaN
    evaluates to `false`.
  - `cutoffDate.setDate(cutoffDate.getDate() - d)` subtracts d calendar
    days; on the UTC runners this system targets that is exactly
    `d * 86400000` milliseconds.  `setHours(getHours() - 23)` is
    `23 * 3600000` milliseconds.
  - A rejected promise / thrown exception is `Except.error`; normal
    return is `Except.ok`.
  - External collaborators (Neon catalog API, Google Drive API, pg_dump,
    the filesystem) are injected as explicit parameters, mirroring the
    await-call sites of the source.
  - JavaScript strings that are manipulated character by character
    (filename generation) are modelled as `List Char`; strings used only
    as opaque labels stay `String`.
-/

/-- Milliseconds in one day, as used by calendar-day cutoff arithmetic. -/
def msPerDay : Int := 86400000

/-- Milliseconds in one hour. -/
def msPerHour : Int := 3600000

/-- JavaScript `d1 >= d2` on two `Date` values: both are coerced to their
numeric time values; if either is NaN (Invalid Date, here `none`) the
comparison is `false`. -/
def jsDateGe (a b : Option Int) : Bool :=
  match a, b with
  | some x, some y => decide (y ≤ x)
  | _, _ => false

namespace NeonDiscoveryService

/-- A Neon branch as consumed by the discovery service.  `updatedAt` is
the result of `new Date(branch.updated_at)`: `some t` for a parseable
catalog timestamp with time value `t`, `none` for an unparseable one
(Invalid Date / NaN). -/
structure NeonBranch where
  id : String
  name : String
  updatedAt : Option Int
deriving DecidableEq

/-- `checkBranchActivity` from the configurable-days version of
`neon-discovery.ts`: `cutoffDate = new Date(); cutoffDate.setDate(getDate()
- retentionDays); return new Date(branch.updated_at) >= cutoffDate`.
The surrounding try/catch would return `true` on an exception, but no
statement in the try block can throw: `new Date` on a bad string yields
an Invalid Date rather than throwing, and the `>=` comparison with its
NaN time value is `false`.  So the catch branch is unreachable and is
not part of the returned value. -/
def checkBranchActivity (now : Int) (retentionDays : Int) (b : NeonBranch) : Bool :=
  jsDateGe b.updatedAt (some (now - retentionDays * msPerDay))

/-- `checkBranchActivity` from the fixed-window version of
`neon-discovery.ts`: `cutoffDate.setHours(getHours() - 23)`; otherwise
identical to the configurable-days variant, including the unreachable
fail-open catch. -/
def checkBranchActivityHours (now : Int) (b : NeonBranch) : Bool :=
  jsDateGe b.updatedAt (some (now - 23 * msPerHour))

end NeonDiscoveryService

/-- C1: the claim says that for a branch whose `updated_at` fails to
parse, `checkBranchActivity` returns `true` (fail-open).  Evaluating the
embedded code at such a branch shows it returns `false` in both versions
of the discovery service: `new Date` never throws on bad input, so the
fail-open catch (and the code's own comment "assume there's activity to
be safe") is dead, and the NaN comparison fails closed. -/
theorem c1_unparseable_timestamp_fails_closed :
    NeonDiscoveryService.checkBranchActivity 1735689600000 7
      { id := "br-1", name := "main", updatedAt := none } = false ∧
    NeonDiscoveryService.checkBranchActivityHours 1735689600000
      { id := "br-1", name := "main", updatedAt := none } = false := by
  exact ⟨rfl, rfl⟩

/-- C2: for a branch with a parseable `updated_at`, `checkBranchActivity`
returns `true` exactly when `updated_at >= now - lookbackWindow`, with the
boundary (equality at the cutoff) counting as active; the window is
`retentionDays` calendar days in the configurable version and 23 hours in
the fixed-window version. -/
theorem c2_active_iff_updated_at_ge_cutoff (now d t : Int)
    (i n : String) :
    (NeonDiscoveryService.checkBranchActivity now d
        { id := i, name := n, updatedAt := some t } = true ↔
      now - d * msPerDay ≤ t) ∧
    (NeonDiscoveryService.checkBranchActivityHours now
        { id := i, name := n, updatedAt := some t } = true ↔
      now - 23 * msPerHour ≤ t) := by
  constructor <;>
    simp [NeonDiscoveryService.checkBranchActivity,
      NeonDiscoveryService.checkBranchActivityHours, jsDateGe]

namespace NeonDiscoveryService

/-- A Neon project as listed by `discoverProjects`. -/
structure NeonProject where
  id : String
  name : String
deriving DecidableEq

/-- The `DatabaseActivity` record pushed onto `activeResources`. -/
structure DatabaseActivity where
  projectId : String
  projectName : String
  branchId : String
  branchName : String
  hasRecentActivity : Bool
  lastActivityDate : Option Int
  connectionUri : Option String
deriving DecidableEq

/-- The external Neon catalog API as seen by `discoverActiveResources`:
`discoverProjects` and `discoverBranches` rethrow any API error, and
`getBranchConnectionUri` may reject on each call.  `resolveUri` takes the
attempt index (0 for the call inside the try block, 1 for the call inside
the catch handler) so that a call-dependent outcome of the external API
is representable. -/
structure DiscoveryEnv where
  projects : Except String (List NeonProject)
  branches : String → Except String (List NeonBranch)
  resolveUri : String → String → Nat → Except String String

/-- The body of the per-branch loop of `discoverActiveResources`.
The try block runs `checkBranchActivity` (which cannot throw) and, when
it returns true, awaits `getBranchConnectionUri`; if that rejects, the
catch handler logs and awaits `getBranchConnectionUri` a second time,
pushing the branch with the retried URI on success and dropping the
branch only when the second call also rejects.  An inactive branch is
skipped without touching the resolver. -/
def processBranch (retentionDays now : Int) (env : DiscoveryEnv)
    (p : NeonProject) (b : NeonBranch) : Option DatabaseActivity :=
  if checkBranchActivity now retentionDays b then
    match env.resolveUri p.id b.id 0 with
    | .ok uri =>
        some { projectId := p.id, projectName := p.name, branchId := b.id,
               branchName := b.name, hasRecentActivity := true,
               lastActivityDate := b.updatedAt, connectionUri := some uri }
    | .error _ =>
        match env.resolveUri p.id b.id 1 with
        | .ok uri =>
            some { projectId := p.id, projectName := p.name, branchId := b.id,
                   branchName := b.name, hasRecentActivity := true,
                   lastActivityDate := b.updatedAt, connectionUri := some uri }
        | .error _ => none
  else none

/-- `discoverActiveResources`: enumerate projects (an error there is
rethrown by the outer catch), then for each project enumerate branches
(an error is caught per project and that project contributes nothing),
then run the per-branch body in order, collecting the pushed records. -/
def discoverActiveResources (retentionDays now : Int) (env : DiscoveryEnv) :
    Except String (List DatabaseActivity) :=
  match env.projects with
  | .error e => .error e
  | .ok projects =>
      .ok (projects.flatMap fun p =>
        match env.branches p.id with
        | .error _ => []
        | .ok branches =>
            branches.filterMap (processBranch retentionDays now env p))

/-- Concrete discovery environment refuting C9: one project with one
active branch whose connection resolution rejects on the first attempt
and succeeds on the second. -/
def c9Env : DiscoveryEnv :=
  { projects := .ok [{ id := "p1", name := "P1" }],
    branches := fun _ =>
      .ok [{ id := "b1", name := "main", updatedAt := some 1735689600000 }],
    resolveUri := fun _ _ attempt =>
      if attempt = 0 then .error "transient API error" else .ok "postgres-uri" }

end NeonDiscoveryService

/-- C9 counterexample: the claim says an error while resolving a branch's
connection URI causes the branch to be dropped, with no automatic retry
of the resolution call.  In the code the catch handler around the branch
body calls `getBranchConnectionUri` a second time: with a resolver that
rejects on attempt 0 and succeeds on attempt 1, discovery returns the
branch (with the retried URI) instead of dropping it. -/
theorem c9_counterexample :
    NeonDiscoveryService.c9Env.resolveUri "p1" "b1" 0 =
      .error "transient API error" ∧
    NeonDiscoveryService.discoverActiveResources 7 1735689700000
        NeonDiscoveryService.c9Env =
      .ok [{ projectId := "p1", projectName := "P1", branchId := "b1",
             branchName := "main", hasRecentActivity := true,
             lastActivityDate := some 1735689600000,
             connectionUri := some "postgres-uri" }] := by
  exact ⟨rfl, rfl⟩

/-- C9 amended: during `discoverActiveResources`, when resolving an
active branch's connection URI errors, the error is logged and the catch
handler automatically retries the resolution exactly once; the branch is
dropped only when that second attempt also errors, and is included with
the retried URI when it succeeds. -/
theorem c9_resolution_retried_once_then_dropped
    (retentionDays now : Int) (env : NeonDiscoveryService.DiscoveryEnv)
    (p : NeonDiscoveryService.NeonProject)
    (b : NeonDiscoveryService.NeonBranch) (e1 : String)
    (hactive : NeonDiscoveryService.checkBranchActivity now retentionDays b = true)
    (hfail : env.resolveUri p.id b.id 0 = .error e1) :
    (∀ e2, env.resolveUri p.id b.id 1 = .error e2 →
      NeonDiscoveryService.processBranch retentionDays now env p b = none) ∧
    (∀ uri, env.resolveUri p.id b.id 1 = .ok uri →
      NeonDiscoveryService.processBranch retentionDays now env p b =
        some { projectId := p.id, projectName := p.name, branchId := b.id,
               branchName := b.name, hasRecentActivity := true,
               lastActivityDate := b.updatedAt, connectionUri := some uri }) := by
  constructor
  · intro e2 h2
    simp [NeonDiscoveryService.processBranch, hactive, hfail, h2]
  · intro uri h2
    simp [NeonDiscoveryService.processBranch, hactive, hfail, h2]

/-- C9 witness: the amended theorem applied to a concrete environment in
which both resolution attempts fail, concluding that the branch is
dropped. -/
theorem c9_resolution_witness :
    NeonDiscoveryService.checkBranchActivity 1735689700000 7
      { id := "b1", name := "main", updatedAt := some 1735689600000 } = true ∧
    NeonDiscoveryService.processBranch 7 1735689700000
      { projects := .ok [], branches := fun _ => .ok [],
        resolveUri := fun _ _ _ => .error "down" }
      { id := "p1", name := "P1" }
      { id := "b1", name := "main", updatedAt := some 1735689600000 } = none := by
  refine ⟨by decide, ?_⟩
  exact (c9_resolution_retried_once_then_dropped 7 1735689700000
    { projects := .ok [], branches := fun _ => .ok [],
      resolveUri := fun _ _ _ => .error "down" }
    { id := "p1", name := "P1" }
    { id := "b1", name := "main", updatedAt := some 1735689600000 }
    "down" (by decide) rfl).1 "down" rfl

namespace DatabaseBackupService

/-- The `BackupResult` record of `backup-service.ts`. -/
structure BackupResult where
  success : Bool
  filePath : Option String
  fileName : Option String
  fileSize : Option Int
  error : Option String
  duration : Option Int
deriving DecidableEq

/-- The failure artifact pushed by the catch branch of the
`createMultipleBackups` loop: `{ success: false, error: message }`. -/
def caughtFailure (e : String) : BackupResult :=
  { success := false, filePath := none, fileName := none, fileSize := none,
    error := some e, duration := none }

/-- One iteration of the `createMultipleBackups` loop: await
`createBackup` and push its result; if the awaited call throws, push the
failure artifact instead.  `createBackup` itself may either resolve to a
`BackupResult` (`.ok`) or reject (`.error`). -/
def backupStep (createBackup : α → Except String BackupResult)
    (resource : α) : BackupResult :=
  match createBackup resource with
  | .ok r => r
  | .error e => caughtFailure e

/-- The `for (const resource of resources)` loop of
`createMultipleBackups`, with the `results` array threaded as an
accumulator exactly as the code pushes into it. -/
def createMultipleBackupsLoop (createBackup : α → Except String BackupResult)
    (results : List BackupResult) : List α → List BackupResult
  | [] => results
  | resource :: rest =>
      createMultipleBackupsLoop createBackup
        (results ++ [backupStep createBackup resource]) rest

/-- `createMultipleBackups`: run the loop starting from an empty
`results` array and return the array. -/
def createMultipleBackups (createBackup : α → Except String BackupResult)
    (resources : List α) : List BackupResult :=
  createMultipleBackupsLoop createBackup [] resources

theorem createMultipleBackupsLoop_eq (createBackup : α → Except String BackupResult)
    (resources : List α) (acc : List BackupResult) :
    createMultipleBackupsLoop createBackup acc resources =
      acc ++ resources.map (backupStep createBackup) := by
  induction resources generalizing acc with
  | nil => simp [createMultipleBackupsLoop]
  | cons r rest ih => simp [createMultipleBackupsLoop, ih]

end DatabaseBackupService

/-- C3: for every list of N resources and every behaviour of
`createBackup` (including rejections), `createMultipleBackups` returns
exactly one artifact per input resource in input order — a thrown
exception is converted into a failure artifact and the loop continues,
never aborting early.  The result is literally the input list mapped
through the per-resource step, so it has length N and its i-th entry
comes from the i-th resource. -/
theorem c3_one_artifact_per_resource_in_order {α : Type}
    (createBackup : α → Except String DatabaseBackupService.BackupResult)
    (resources : List α) :
    DatabaseBackupService.createMultipleBackups createBackup resources =
      resources.map (DatabaseBackupService.backupStep createBackup) ∧
    (DatabaseBackupService.createMultipleBackups createBackup resources).length =
      resources.length := by
  constructor
  · simpa using DatabaseBackupService.createMultipleBackupsLoop_eq
      createBackup resources []
  · rw [DatabaseBackupService.createMultipleBackups,
      DatabaseBackupService.createMultipleBackupsLoop_eq]
    simp

namespace DatabaseBackupService

/-- A file of the local staging directory: its name and the `mtime` of
`fs.stat`, in epoch milliseconds. -/
structure LocalFile where
  name : List Char
  mtime : Int
deriving DecidableEq

/-- The extension test of the local cleanup loop:
`file.endsWith('.dump') || file.endsWith('.sql') || file.endsWith('.zip')`. -/
def hasBackupExtension (name : List Char) : Bool :=
  List.isSuffixOf ['.', 'd', 'u', 'm', 'p'] name ||
  List.isSuffixOf ['.', 's', 'q', 'l'] name ||
  List.isSuffixOf ['.', 'z', 'i', 'p'] name

/-- Whether one pass of the `cleanupOldBackups` loop unlinks the file:
backup extension and `stats.mtime < cutoffDate` (strict). -/
def cleanupDeletes (cutoff : Int) (f : LocalFile) : Bool :=
  hasBackupExtension f.name && decide (f.mtime < cutoff)

/-- The `for (const file of files)` loop of the local `cleanupOldBackups`,
returning the files that remain in the staging directory and the
`deletedCount`.  `cutoff` is `now - retentionDays` calendar days. -/
def cleanupOldBackups (cutoff : Int) : List LocalFile → List LocalFile × Nat
  | [] => ([], 0)
  | f :: rest =>
      let (remaining, n) := cleanupOldBackups cutoff rest
      if cleanupDeletes cutoff f then (remaining, n + 1) else (f :: remaining, n)

theorem cleanupOldBackups_remaining (cutoff : Int) (files : List LocalFile) :
    (cleanupOldBackups cutoff files).1 =
      files.filter (fun f => !cleanupDeletes cutoff f) := by
  induction files with
  | nil => rfl
  | cons f rest ih =>
      by_cases h : cleanupDeletes cutoff f = true <;>
        simp [cleanupOldBackups, ih, List.filter_cons, h]

end DatabaseBackupService

namespace GoogleDriveService

/-- A file in the resolved Drive backup folder, with its server-side
`createdTime` in epoch milliseconds. -/
structure RemoteFile where
  id : String
  name : String
  createdTime : Int
deriving DecidableEq

/-- The remote `cleanupOldBackups` of `google-drive-service.ts`: the
query `createdTime < cutoff` is pushed into `files.list`, and each listed
file is deleted (per-file failures only skip that deletion; the committed
behaviour on a fault-free store deletes all of them).  Returns the files
that remain in the folder. -/
def cleanupOldBackups (cutoff : Int) (files : List RemoteFile) : List RemoteFile :=
  files.filter fun f => !(decide (f.createdTime < cutoff))

end GoogleDriveService

namespace GoogleDriveOAuthService

/-- The OAuth-variant remote `cleanupOldBackups`: lists everything under
the backup folder and filters client-side with
`new Date(file.createdTime) < cutoffDate`, deleting the matches.  Returns
the files that remain. -/
def cleanupOldBackups (cutoff : Int) (files : List GoogleDriveService.RemoteFile) :
    List GoogleDriveService.RemoteFile :=
  files.filter fun f => !(decide (f.createdTime < cutoff))

end GoogleDriveOAuthService

/-- C8: in the local cleanup and in both remote cleanups the age
comparison is strict: a file whose mtime / createdTime equals the cutoff
`now - retentionDays` exactly is retained, and any file even one
millisecond older (with a backup extension, locally) is deleted. -/
theorem c8_cleanup_cutoff_is_strict (now days : Int)
    (f : DatabaseBackupService.LocalFile)
    (files : List DatabaseBackupService.LocalFile)
    (g : GoogleDriveService.RemoteFile)
    (remote : List GoogleDriveService.RemoteFile)
    (hf : f ∈ files) (hg : g ∈ remote) :
    (f.mtime = now - days * msPerDay →
      f ∈ (DatabaseBackupService.cleanupOldBackups (now - days * msPerDay) files).1) ∧
    (DatabaseBackupService.hasBackupExtension f.name = true →
      f.mtime < now - days * msPerDay →
      f ∉ (DatabaseBackupService.cleanupOldBackups (now - days * msPerDay) files).1) ∧
    (g.createdTime = now - days * msPerDay →
      g ∈ GoogleDriveService.cleanupOldBackups (now - days * msPerDay) remote ∧
      g ∈ GoogleDriveOAuthService.cleanupOldBackups (now - days * msPerDay) remote) ∧
    (g.createdTime < now - days * msPerDay →
      g ∉ GoogleDriveService.cleanupOldBackups (now - days * msPerDay) remote ∧
      g ∉ GoogleDriveOAuthService.cleanupOldBackups (now - days * msPerDay) remote) := by
  refine ⟨?_, ?_, ?_, ?_⟩
  · intro heq
    rw [DatabaseBackupService.cleanupOldBackups_remaining]
    simp [List.mem_filter, hf, DatabaseBackupService.cleanupDeletes, heq]
  · intro hext hold
    rw [DatabaseBackupService.cleanupOldBackups_remaining]
    simp [List.mem_filter, DatabaseBackupService.cleanupDeletes, hext, hold]
  · intro heq
    constructor <;>
      simp [GoogleDriveService.cleanupOldBackups,
        GoogleDriveOAuthService.cleanupOldBackups, List.mem_filter, hg, heq]
  · intro hold
    constructor <;>
      simp [GoogleDriveService.cleanupOldBackups,
        GoogleDriveOAuthService.cleanupOldBackups, List.mem_filter, hg, hold]

/-- Concrete staging-directory contents for the C8 witness: one backup
file exactly at the cutoff and one backup file 1 ms older. -/
def c8FileAtCutoff : DatabaseBackupService.LocalFile :=
  { name := ['a', '.', 's', 'q', 'l'], mtime := 0 }

def c8FileOlder : DatabaseBackupService.LocalFile :=
  { name := ['b', '.', 's', 'q', 'l'], mtime := -1 }

/-- Concrete Drive-folder contents for the C8 witness. -/
def c8RemoteAtCutoff : GoogleDriveService.RemoteFile :=
  { id := "r1", name := "a.zip", createdTime := 0 }

/-- C8 witness: the theorem applied with now = 7 days after epoch and a
7-day retention (cutoff 0), to a staging directory holding a file exactly
at the cutoff and a file 1 ms older: the boundary file survives locally
and remotely, and the older local file is deleted. -/
theorem c8_cleanup_cutoff_witness :
    c8FileAtCutoff ∈ [c8FileAtCutoff, c8FileOlder] ∧
    c8RemoteAtCutoff ∈ [c8RemoteAtCutoff] ∧
    DatabaseBackupService.hasBackupExtension c8FileOlder.name = true ∧
    (c8FileAtCutoff ∈
      (DatabaseBackupService.cleanupOldBackups (604800000 - 7 * msPerDay)
        [c8FileAtCutoff, c8FileOlder]).1 ∧
      c8FileOlder ∉
        (DatabaseBackupService.cleanupOldBackups (604800000 - 7 * msPerDay)
          [c8FileAtCutoff, c8FileOlder]).1 ∧
      c8RemoteAtCutoff ∈
        GoogleDriveService.cleanupOldBackups (604800000 - 7 * msPerDay)
          [c8RemoteAtCutoff]) := by
  refine ⟨by decide, by decide, by decide, ?_, ?_, ?_⟩
  · exact (c8_cleanup_cutoff_is_strict 604800000 7 c8FileAtCutoff
      [c8FileAtCutoff, c8FileOlder] c8RemoteAtCutoff [c8RemoteAtCutoff]
      (by decide) (by decide)).1 (by decide)
  · exact (c8_cleanup_cutoff_is_strict 604800000 7 c8FileOlder
      [c8FileAtCutoff, c8FileOlder] c8RemoteAtCutoff [c8RemoteAtCutoff]
      (by decide) (by decide)).2.1 (by decide) (by decide)
  · exact ((c8_cleanup_cutoff_is_strict 604800000 7 c8FileAtCutoff
      [c8FileAtCutoff, c8FileOlder] c8RemoteAtCutoff [c8RemoteAtCutoff]
      (by decide) (by decide)).2.2.1 (by decide)).1

/-- Whether an awaited call resolved (did not throw). -/
def exceptOk : Except ε α → Bool
  | .ok _ => true
  | .error _ => false

theorem length_filter_add_length_filter_not (p : α → Bool) (l : List α) :
    (l.filter p).length + (l.filter fun x => !(p x)).length = l.length := by
  induction l with
  | nil => rfl
  | cons x rest ih =>
      by_cases h : p x = true <;> simp [List.filter_cons, h, ← ih] <;> omega

namespace GoogleDriveOAuthService

/-- The counting loop of the OAuth `uploadMultipleBackups`: for each
artifact, await `uploadBackup(backup.filePath, backup.fileName)` and
increment `successful`; on a rejection, log and increment `failed`.
`upload` is the injected Drive call for one artifact. -/
def uploadLoop (upload : DatabaseBackupService.BackupResult → Except String Unit)
    (successful failed : Nat) :
    List DatabaseBackupService.BackupResult → Nat × Nat
  | [] => (successful, failed)
  | b :: rest =>
      match upload b with
      | .ok _ => uploadLoop upload (successful + 1) failed rest
      | .error _ => uploadLoop upload successful (failed + 1) rest

/-- The OAuth `uploadMultipleBackups`: filter the artifacts to
`r.success`, run the counting loop from (0, 0), and return
`{ successful, failed }`. -/
def uploadMultipleBackups
    (upload : DatabaseBackupService.BackupResult → Except String Unit)
    (backupResults : List DatabaseBackupService.BackupResult) : Nat × Nat :=
  uploadLoop upload 0 0 (backupResults.filter fun r => r.success)

theorem uploadLoop_eq (upload : DatabaseBackupService.BackupResult → Except String Unit)
    (l : List DatabaseBackupService.BackupResult) (s f : Nat) :
    uploadLoop upload s f l =
      (s + (l.filter fun b => exceptOk (upload b)).length,
       f + (l.filter fun b => !exceptOk (upload b)).length) := by
  induction l generalizing s f with
  | nil => simp [uploadLoop]
  | cons b rest ih =>
      rcases h : upload b with e | u <;>
        simp [uploadLoop, h, ih, List.filter_cons, exceptOk] <;> omega

end GoogleDriveOAuthService

namespace GoogleDriveService

/-- The `UploadResult` record of `google-drive-service.ts`. -/
structure UploadResult where
  success : Bool
  fileId : Option String
  fileName : Option String
  webViewLink : Option String
  error : Option String
  duration : Option Int
deriving DecidableEq

/-- One iteration of the `uploadMultipleBackups` loop of
`google-drive-service.ts`: a guard pushes a failure result when the
artifact has no `filePath` (unreachable after the filter, kept for
faithfulness); otherwise `uploadBackup(backup.filePath, backup.fileName)`
is awaited and its result pushed, and a rejection of the awaited call is
caught and pushed as a failure result. -/
def uploadStep (upload : String → Option String → Except String UploadResult)
    (b : DatabaseBackupService.BackupResult) : UploadResult :=
  match b.filePath with
  | none =>
      { success := false, fileId := none, fileName := b.fileName,
        webViewLink := none, error := some "No file path provided",
        duration := none }
  | some path =>
      match upload path b.fileName with
      | .ok r => r
      | .error e =>
          { success := false, fileId := none, fileName := b.fileName,
            webViewLink := none, error := some e, duration := none }

/-- The `for (const backup of successfulBackups)` loop, with the
`uploadResults` array threaded as the code pushes into it. -/
def uploadMultipleBackupsLoop
    (upload : String → Option String → Except String UploadResult)
    (uploadResults : List UploadResult) :
    List DatabaseBackupService.BackupResult → List UploadResult
  | [] => uploadResults
  | b :: rest =>
      uploadMultipleBackupsLoop upload (uploadResults ++ [uploadStep upload b]) rest

/-- `uploadMultipleBackups` of `google-drive-service.ts`: iterate over
`backupResults.filter(result => result.success && result.filePath)` and
return the pushed `uploadResults`. -/
def uploadMultipleBackups
    (upload : String → Option String → Except String UploadResult)
    (backupResults : List DatabaseBackupService.BackupResult) : List UploadResult :=
  uploadMultipleBackupsLoop upload []
    (backupResults.filter fun r => r.success && r.filePath.isSome)

theorem uploadMultipleBackupsLoop_eq
    (upload : String → Option String → Except String UploadResult)
    (l : List DatabaseBackupService.BackupResult) (acc : List UploadResult) :
    uploadMultipleBackupsLoop upload acc l = acc ++ l.map (uploadStep upload) := by
  induction l generalizing acc with
  | nil => simp [uploadMultipleBackupsLoop]
  | cons b rest ih => simp [uploadMultipleBackupsLoop, ih]

end GoogleDriveService

/-- C4: both upload batches iterate only over artifacts with
`success = true` and never abort early.  The OAuth variant reports
exactly the throwing uploads as `failed` and the rest as `successful`,
with `successful + failed = M`, the number of successful artifacts.  The
service-account variant maps each filtered artifact to one upload result
(a thrown upload is caught and recorded as a per-file failure), in input
order. -/
theorem c4_upload_batch_counts_and_isolation
    (upload : DatabaseBackupService.BackupResult → Except String Unit)
    (upload2 : String → Option String →
      Except String GoogleDriveService.UploadResult)
    (rs : List DatabaseBackupService.BackupResult) :
    GoogleDriveOAuthService.uploadMultipleBackups upload rs =
      (((rs.filter fun r => r.success).filter
          fun b => exceptOk (upload b)).length,
       ((rs.filter fun r => r.success).filter
          fun b => !exceptOk (upload b)).length) ∧
    (GoogleDriveOAuthService.uploadMultipleBackups upload rs).1 +
        (GoogleDriveOAuthService.uploadMultipleBackups upload rs).2 =
      (rs.filter fun r => r.success).length ∧
    GoogleDriveService.uploadMultipleBackups upload2 rs =
      (rs.filter fun r => r.success && r.filePath.isSome).map
        (GoogleDriveService.uploadStep upload2) := by
  have h := GoogleDriveOAuthService.uploadLoop_eq upload
    (rs.filter fun r => r.success) 0 0
  refine ⟨?_, ?_, ?_⟩
  · simpa [GoogleDriveOAuthService.uploadMultipleBackups] using h
  · rw [GoogleDriveOAuthService.uploadMultipleBackups, h]
    simpa using length_filter_add_length_filter_not
      (fun b => exceptOk (upload b)) (rs.filter fun r => r.success)
  · simpa [GoogleDriveService.uploadMultipleBackups] using
      GoogleDriveService.uploadMultipleBackupsLoop_eq upload2
        (rs.filter fun r => r.success && r.filePath.isSome) []

namespace GoogleDriveService

/-- One entry of the backing Drive store as visible to the folder
queries: id, name, whether its mimeType is the folder mimeType, its
parent (if any), and the trashed flag. -/
structure DriveEntry where
  id : Nat
  name : String
  isFolder : Bool
  parent : Option Nat
  trashed : Bool
deriving DecidableEq

/-- The backing Drive store: the entries, and the server-side counter
from which the id of a newly created entry is drawn. -/
structure DriveState where
  entries : List DriveEntry
  nextId : Nat
deriving DecidableEq

/-- The `files.list` query of `findOrCreateFolder`:
`name='…' [and '…' in parents] and mimeType='…folder' and trashed=false`.
With no parent given, the query has no parents clause and matches any
parent. -/
def folderQuery (st : DriveState) (folderName : String) (parentId : Option Nat) :
    List DriveEntry :=
  st.entries.filter fun e =>
    e.name = folderName && e.isFolder && !e.trashed &&
      (match parentId with
       | some p => e.parent = some p
       | none => true)

/-- `findOrCreateFolder` of `google-drive-service.ts`: search for the
folder; when the search returns at least one file, return the first hit's
id without touching the store; otherwise create a folder with that name,
mimeType and optional parent, and return the new id. -/
def findOrCreateFolder (st : DriveState) (folderName : String)
    (parentId : Option Nat) : Nat × DriveState :=
  match folderQuery st folderName parentId with
  | e :: _ => (e.id, st)
  | [] =>
      (st.nextId,
       { entries := st.entries ++
           [{ id := st.nextId, name := folderName, isFolder := true,
              parent := parentId, trashed := false }],
         nextId := st.nextId + 1 })

end GoogleDriveService

/-- C7: destination-folder resolution is idempotent against the same
backing store: the second `findOrCreateFolder` (for the same name and
parent) returns the id the first call returned and leaves the store
unchanged — the create path is taken only when the search finds no
existing folder of that name and type. -/
theorem c7_find_or_create_folder_idempotent (st : GoogleDriveService.DriveState)
    (folderName : String) (parentId : Option Nat) :
    (GoogleDriveService.findOrCreateFolder
        (GoogleDriveService.findOrCreateFolder st folderName parentId).2
        folderName parentId).1 =
      (GoogleDriveService.findOrCreateFolder st folderName parentId).1 ∧
    (GoogleDriveService.findOrCreateFolder
        (GoogleDriveService.findOrCreateFolder st folderName parentId).2
        folderName parentId).2 =
      (GoogleDriveService.findOrCreateFolder st folderName parentId).2 := by
  rcases hq : GoogleDriveService.folderQuery st folderName parentId with _ | ⟨e, rest⟩
  · have hq2 : GoogleDriveService.folderQuery
        { entries := st.entries ++
            [{ id := st.nextId, name := folderName, isFolder := true,
               parent := parentId, trashed := false }],
          nextId := st.nextId + 1 } folderName parentId =
        [{ id := st.nextId, name := folderName, isFolder := true,
           parent := parentId, trashed := false }] := by
      rw [GoogleDriveService.folderQuery] at hq ⊢
      rw [List.filter_append, hq]
      cases parentId <;> simp
    constructor <;>
      simp [GoogleDriveService.findOrCreateFolder, hq, hq2]
  · constructor <;> simp [GoogleDriveService.findOrCreateFolder, hq]

namespace NeonBackupOrchestrator

/-- The orchestrator configuration fields that `runBackupProcess`
consults. -/
structure BackupConfiguration where
  cleanupOldBackups : Bool
  cleanupRetentionDays : Int
deriving DecidableEq

/-- The collaborators and ambient state injected into one run:
the Drive connectivity probe, the discovery result, the per-resource
`createBackup` call, the per-file Drive upload call, the staging
directory before the run and the artifacts the backup stage writes, the
Drive folder contents, and the wall clock. -/
structure OrchestratorEnv where
  driveConnectionOk : Bool
  discovered : Except String (List NeonDiscoveryService.DatabaseActivity)
  createBackup : NeonDiscoveryService.DatabaseActivity →
    Except String DatabaseBackupService.BackupResult
  upload : String → Option String →
    Except String GoogleDriveService.UploadResult
  initialLocalFiles : List DatabaseBackupService.LocalFile
  writtenFiles : List DatabaseBackupService.LocalFile
  remoteFiles : List GoogleDriveService.RemoteFile
  now : Int

/-- What one `runBackupProcess` run did: whether the backup stage
(`createMultipleBackups`) and the upload stage (`uploadMultipleBackups`)
were invoked, the staging directory and Drive folder after the run, and
the promise outcome (`.error` = the run threw). -/
structure RunTrace where
  backupInvoked : Bool
  uploadInvoked : Bool
  localFiles : List DatabaseBackupService.LocalFile
  remoteFiles : List GoogleDriveService.RemoteFile
  outcome : Except String Unit

/-- `runBackupProcess` of `index.ts`: test connections (a failed Drive
probe throws; a missing pg_dump only warns), discover, return early with
a normal completion when zero resources are discovered, create the
backups, throw `No successful backups created` when every backup failed,
upload, then (when configured) clean up old local and Drive backups with
`cleanupRetentionDays`.  The outer catch logs and rethrows, so a thrown
stage surfaces as a rejected promise. -/
def runBackupProcess (cfg : BackupConfiguration) (env : OrchestratorEnv) :
    RunTrace :=
  if env.driveConnectionOk then
    match env.discovered with
    | .error e =>
        { backupInvoked := false, uploadInvoked := false,
          localFiles := env.initialLocalFiles, remoteFiles := env.remoteFiles,
          outcome := .error e }
    | .ok activeResources =>
        if activeResources.length = 0 then
          { backupInvoked := false, uploadInvoked := false,
            localFiles := env.initialLocalFiles, remoteFiles := env.remoteFiles,
            outcome := .ok () }
        else
          let backupResults :=
            DatabaseBackupService.createMultipleBackups env.createBackup
              activeResources
          let filesAfterBackup := env.initialLocalFiles ++ env.writtenFiles
          if (backupResults.filter fun r => r.success).length = 0 then
            { backupInvoked := true, uploadInvoked := false,
              localFiles := filesAfterBackup, remoteFiles := env.remoteFiles,
              outcome := .error "No successful backups created" }
          else if cfg.cleanupOldBackups then
            { backupInvoked := true, uploadInvoked := true,
              localFiles := (DatabaseBackupService.cleanupOldBackups
                (env.now - cfg.cleanupRetentionDays * msPerDay)
                filesAfterBackup).1,
              remoteFiles := GoogleDriveService.cleanupOldBackups
                (env.now - cfg.cleanupRetentionDays * msPerDay) env.remoteFiles,
              outcome := .ok () }
          else
            { backupInvoked := true, uploadInvoked := true,
              localFiles := filesAfterBackup, remoteFiles := env.remoteFiles,
              outcome := .ok () }
  else
    { backupInvoked := false, uploadInvoked := false,
      localFiles := env.initialLocalFiles, remoteFiles := env.remoteFiles,
      outcome := .error "Google Drive connection test failed" }

end NeonBackupOrchestrator

/-- C5: with connectivity verified, a discovery that returns zero active
resources ends the run successfully without invoking the backup producer
or the uploader; a discovery that returns at least one resource whose
backup stage produces zero successful artifacts ends the run with a
thrown fatal error (and the uploader is still never invoked). -/
theorem c5_zero_resources_ok_zero_successes_fatal
    (cfg : NeonBackupOrchestrator.BackupConfiguration)
    (env : NeonBackupOrchestrator.OrchestratorEnv)
    (hconn : env.driveConnectionOk = true) :
    (env.discovered = .ok [] →
      NeonBackupOrchestrator.runBackupProcess cfg env =
        { backupInvoked := false, uploadInvoked := false,
          localFiles := env.initialLocalFiles, remoteFiles := env.remoteFiles,
          outcome := .ok () }) ∧
    (∀ rs, env.discovered = .ok rs → rs ≠ [] →
      ((DatabaseBackupService.createMultipleBackups env.createBackup rs).filter
        fun r => r.success).length = 0 →
      NeonBackupOrchestrator.runBackupProcess cfg env =
        { backupInvoked := true, uploadInvoked := false,
          localFiles := env.initialLocalFiles ++ env.writtenFiles,
          remoteFiles := env.remoteFiles,
          outcome := .error "No successful backups created" }) := by
  constructor
  · intro hdisc
    simp [NeonBackupOrchestrator.runBackupProcess, hconn, hdisc]
  · intro rs hdisc hne hzero
    have hlen : rs.length ≠ 0 := by
      simpa [List.length_eq_zero] using hne
    simp [NeonBackupOrchestrator.runBackupProcess, hconn, hdisc, hlen, hzero]

/-- Concrete orchestrator environment for the C5 witness: connectivity
passes and discovery finds nothing. -/
def c5EnvNothingToDo : NeonBackupOrchestrator.OrchestratorEnv :=
  { driveConnectionOk := true, discovered := .ok [],
    createBackup := fun _ => .error "never called",
    upload := fun _ _ => .error "never called",
    initialLocalFiles := [], writtenFiles := [], remoteFiles := [],
    now := 1735689600000 }

/-- C5 witness: the theorem applied to a run whose discovery returns
zero resources, concluding a successful outcome with neither backup nor
upload invoked. -/
theorem c5_zero_resources_witness :
    c5EnvNothingToDo.driveConnectionOk = true ∧
    c5EnvNothingToDo.discovered = .ok [] ∧
    NeonBackupOrchestrator.runBackupProcess
        { cleanupOldBackups := true, cleanupRetentionDays := 30 }
        c5EnvNothingToDo =
      { backupInvoked := false, uploadInvoked := false, localFiles := [],
        remoteFiles := [], outcome := .ok () } := by
  refine ⟨rfl, rfl, ?_⟩
  exact (c5_zero_resources_ok_zero_successes_fatal
    { cleanupOldBackups := true, cleanupRetentionDays := 30 }
    c5EnvNothingToDo rfl).1 rfl

theorem mem_cleanup_remaining_of_not_deleted (cutoff : Int)
    (files : List DatabaseBackupService.LocalFile)
    (f : DatabaseBackupService.LocalFile) (hf : f ∈ files)
    (hkeep : ¬ f.mtime < cutoff) :
    f ∈ (DatabaseBackupService.cleanupOldBackups cutoff files).1 := by
  rw [DatabaseBackupService.cleanupOldBackups_remaining]
  simp [List.mem_filter, hf, DatabaseBackupService.cleanupDeletes, hkeep]

/-- C10: the local cleanup deletes only files whose mtime is strictly
before `now - cleanupRetentionDays`, so with any retention of at least
one day, every artifact the backup stage of the current run wrote (its
mtime is within the last day, since a run starts and finishes within one
day of `now`) is still in the staging directory when the run ends —
in particular local artifacts are not removed after upload. -/
theorem c10_run_artifacts_survive_local_cleanup
    (cfg : NeonBackupOrchestrator.BackupConfiguration)
    (env : NeonBackupOrchestrator.OrchestratorEnv)
    (f : DatabaseBackupService.LocalFile)
    (cutoff : Int)
    (files : List DatabaseBackupService.LocalFile)
    (hdays : 1 ≤ cfg.cleanupRetentionDays)
    (hrecent : env.now - msPerDay ≤ f.mtime)
    (hwritten : f ∈ env.writtenFiles)
    (hran : (NeonBackupOrchestrator.runBackupProcess cfg env).backupInvoked = true) :
    (∀ g ∈ files, ¬ g.mtime < cutoff →
      g ∈ (DatabaseBackupService.cleanupOldBackups cutoff files).1) ∧
    f ∈ (NeonBackupOrchestrator.runBackupProcess cfg env).localFiles := by
  refine ⟨fun g hg hkeep =>
    mem_cleanup_remaining_of_not_deleted cutoff files g hg hkeep, ?_⟩
  have hkeep : ¬ f.mtime < env.now - cfg.cleanupRetentionDays * msPerDay := by
    have hmul : msPerDay ≤ cfg.cleanupRetentionDays * msPerDay := by
      have hpos : (0 : Int) ≤ msPerDay := by decide
      calc msPerDay = 1 * msPerDay := (one_mul _).symm
        _ ≤ cfg.cleanupRetentionDays * msPerDay :=
          mul_le_mul_of_nonneg_right hdays hpos
    omega
  have hmem : f ∈ env.initialLocalFiles ++ env.writtenFiles :=
    List.mem_append_right _ hwritten
  rw [NeonBackupOrchestrator.runBackupProcess] at hran ⊢
  by_cases hconn : env.driveConnectionOk = true
  · rcases hdisc : env.discovered with e | rs
    · simp [hconn, hdisc] at hran
    · simp only [hconn, hdisc, if_true] at hran ⊢
      by_cases hlen : rs.length = 0
      · simp [hlen] at hran
      · rw [if_neg hlen] at hran ⊢
        by_cases hzero :
            ((DatabaseBackupService.createMultipleBackups env.createBackup
              rs).filter fun r => r.success).length = 0
        · simpa [hzero] using hmem
        · by_cases hclean : cfg.cleanupOldBackups = true
          · simpa [hzero, hclean] using
              mem_cleanup_remaining_of_not_deleted _ _ f hmem hkeep
          · simpa [hzero, hclean] using hmem
  · simp [hconn] at hran

/-- Concrete run for the C10 witness: one discovered resource, a
successful backup whose artifact is written at time `now`, cleanup
enabled with a 30-day retention. -/
def c10Resource : NeonDiscoveryService.DatabaseActivity :=
  { projectId := "p1", projectName := "P1", branchId := "b1",
    branchName := "main", hasRecentActivity := true,
    lastActivityDate := some 1735689600000,
    connectionUri := some "postgres-uri" }

def c10Artifact : DatabaseBackupService.LocalFile :=
  { name := ['a', '.', 'z', 'i', 'p'], mtime := 1735689600000 }

def c10Env : NeonBackupOrchestrator.OrchestratorEnv :=
  { driveConnectionOk := true, discovered := .ok [c10Resource],
    createBackup := fun _ =>
      .ok { success := true, filePath := some "./backups/a.zip",
            fileName := some "a.zip", fileSize := some 4096,
            error := none, duration := some 1000 },
    upload := fun _ _ =>
      .ok { success := true, fileId := some "drive-1",
            fileName := some "a.zip", webViewLink := none, error := none,
            duration := some 500 },
    initialLocalFiles := [], writtenFiles := [c10Artifact], remoteFiles := [],
    now := 1735689600000 }

/-- C10 witness: the theorem applied to a concrete run that backs up one
resource and cleans up with a 30-day retention; the artifact written by
the run is still in the staging directory afterwards. -/
theorem c10_run_artifacts_witness :
    (1 : Int) ≤ 30 ∧
    c10Env.now - msPerDay ≤ c10Artifact.mtime ∧
    c10Artifact ∈ c10Env.writtenFiles ∧
    (NeonBackupOrchestrator.runBackupProcess
      { cleanupOldBackups := true, cleanupRetentionDays := 30 }
      c10Env).backupInvoked = true ∧
    c10Artifact ∈ (NeonBackupOrchestrator.runBackupProcess
      { cleanupOldBackups := true, cleanupRetentionDays := 30 }
      c10Env).localFiles := by
  refine ⟨by decide, by decide, by decide, by decide, ?_⟩
  exact (c10_run_artifacts_survive_local_cleanup
    { cleanupOldBackups := true, cleanupRetentionDays := 30 } c10Env
    c10Artifact 0 [] (by decide) (by decide) (by decide) (by decide)).2

namespace DatabaseBackupService

/-- The character class kept by the sanitizer regex
`[^a-zA-Z0-9-_]` of `generateBackupFileName`. -/
def isSafeFilenameChar (c : Char) : Bool :=
  ('a' ≤ c && c ≤ 'z') || ('A' ≤ c && c ≤ 'Z') || ('0' ≤ c && c ≤ '9') ||
    c = '-' || c = '_'

/-- `name.replace(/[^a-zA-Z0-9-_]/g, '_')`. -/
def sanitizeName (s : List Char) : List Char :=
  s.map fun c => if isSafeFilenameChar c then c else '_'

/-- `.replace(/[:.]/g, '-')` on the ISO string. -/
def replaceColonDot (s : List Char) : List Char :=
  s.map fun c => if c = ':' || c = '.' then '-' else c

/-- `.replace('T', '_')`: a string pattern replaces only the first
occurrence in JavaScript. -/
def replaceFirstT : List Char → List Char
  | [] => []
  | c :: rest => if c = 'T' then '_' :: rest else c :: replaceFirstT rest

/-- `.slice(0, -5)`: all characters but the last `n`. -/
def sliceDropLast (n : Nat) (s : List Char) : List Char :=
  s.take (s.length - n)

/-- The timestamp of `generateBackupFileName`:
`new Date().toISOString().replace(/[:.]/g, '-').replace('T', '_').slice(0, -5)`,
as a function of the ISO-8601 string `toISOString` returned. -/
def isoToTimestamp (iso : List Char) : List Char :=
  sliceDropLast 5 (replaceFirstT (replaceColonDot iso))

/-- `generateBackupFileName(projectName, branchName, customFormat)`:
`${sanitizedProjectName}_${sanitizedBranchName}_${timestamp}.${extension}`
with extension `dump` for the custom format and `sql` otherwise, as a
function of the ISO string the wall clock produced. -/
def generateBackupFileName (projectName branchName iso : List Char)
    (customFormat : Bool) : List Char :=
  sanitizeName projectName ++ '_' :: sanitizeName branchName ++ '_' ::
    isoToTimestamp iso ++ '.' ::
      (if customFormat then ['d', 'u', 'm', 'p'] else ['s', 'q', 'l'])

/-- The shape of a `Date.prototype.toISOString` result,
`YYYY-MM-DDThh:mm:ss.fffZ`, from its digit groups. -/
def isoOf (Y M D h n s f : List Char) : List Char :=
  Y ++ '-' :: M ++ '-' :: D ++ 'T' :: h ++ ':' :: n ++ ':' :: s ++ '.' ::
    f ++ ['Z']

def isDigitChar (c : Char) : Bool := '0' ≤ c && c ≤ '9'

/-- An ISO-8601 string as `toISOString` always produces it: four year
digits, two digits for each of month, day, hour, minute, second, three
fraction digits, with the fixed separators of `isoOf`. -/
def WellFormedIso (iso : List Char) : Prop :=
  ∃ Y M D h n s f, iso = isoOf Y M D h n s f ∧
    Y.all isDigitChar = true ∧ M.all isDigitChar = true ∧
    D.all isDigitChar = true ∧ h.all isDigitChar = true ∧
    n.all isDigitChar = true ∧ s.all isDigitChar = true ∧
    f.all isDigitChar = true ∧
    Y.length = 4 ∧ M.length = 2 ∧ D.length = 2 ∧ h.length = 2 ∧
    n.length = 2 ∧ s.length = 2 ∧ f.length = 3

/-- The filename character class asserted by the claim:
`[A-Za-z0-9_-.]`. -/
def isAllowedFilenameChar (c : Char) : Bool :=
  isSafeFilenameChar c || c = '.'

/-- Characters that the sanitizer keeps unchanged and that are not the
underscore separator: the class `[A-Za-z0-9-]`. -/
def isPlainNameChar (c : Char) : Bool :=
  isSafeFilenameChar c && !(c = '_')

end DatabaseBackupService

/-- C6 counterexample: the claim says `generateBackupFileName` is
injective for inputs differing in project name.  The sanitizer maps
every character outside `[a-zA-Z0-9-_]` to `_`, so the distinct project
names `"a b"` and `"a_b"` yield identical filenames for the same branch
name and timestamp. -/
theorem c6_counterexample :
    DatabaseBackupService.generateBackupFileName ['a', ' ', 'b'] ['x']
        (DatabaseBackupService.isoOf ['2', '0', '2', '5'] ['0', '1']
          ['0', '2'] ['0', '3'] ['0', '4'] ['0', '5'] ['6', '7', '8'])
        false =
      DatabaseBackupService.generateBackupFileName ['a', '_', 'b'] ['x']
        (DatabaseBackupService.isoOf ['2', '0', '2', '5'] ['0', '1']
          ['0', '2'] ['0', '3'] ['0', '4'] ['0', '5'] ['6', '7', '8'])
        false ∧
    (['a', ' ', 'b'] : List Char) ≠ ['a', '_', 'b'] := by
  exact ⟨by decide, by decide⟩

namespace DatabaseBackupService

theorem digit_colonDot_false (c : Char) (h : isDigitChar c = true) :
    (c = ':' || c = '.') = false := by
  by_cases h1 : c = ':'
  · subst h1; exact absurd h (by decide)
  · by_cases h2 : c = '.'
    · subst h2; exact absurd h (by decide)
    · simp [h1, h2]

theorem digit_ne_T (c : Char) (h : isDigitChar c = true) : c ≠ 'T' := by
  intro he; subst he; exact absurd h (by decide)

theorem digit_safe (c : Char) (h : isDigitChar c = true) :
    isSafeFilenameChar c = true := by
  simp only [isDigitChar] at h
  simp [isSafeFilenameChar, h]

theorem replaceColonDot_cons (c : Char) (l : List Char) :
    replaceColonDot (c :: l) =
      (if c = ':' || c = '.' then '-' else c) :: replaceColonDot l := rfl

theorem replaceColonDot_append (a b : List Char) :
    replaceColonDot (a ++ b) = replaceColonDot a ++ replaceColonDot b := by
  simp [replaceColonDot]

theorem replaceColonDot_digits (l : List Char) (h : l.all isDigitChar = true) :
    replaceColonDot l = l := by
  induction l with
  | nil => rfl
  | cons c rest ih =>
      simp only [List.all_cons, Bool.and_eq_true] at h
      rw [replaceColonDot_cons, ih h.2]
      simp [digit_colonDot_false c h.1]

theorem replaceColonDot_isoOf (Y M D h n s f : List Char)
    (hY : Y.all isDigitChar = true) (hM : M.all isDigitChar = true)
    (hD : D.all isDigitChar = true) (hh : h.all isDigitChar = true)
    (hn : n.all isDigitChar = true) (hs : s.all isDigitChar = true)
    (hf : f.all isDigitChar = true) :
    replaceColonDot (isoOf Y M D h n s f) =
      Y ++ '-' :: M ++ '-' :: D ++ 'T' :: h ++ '-' :: n ++ '-' :: s ++ '-' ::
        f ++ ['Z'] := by
  simp +decide [isoOf, replaceColonDot_append, replaceColonDot_cons,
    replaceColonDot_digits Y hY, replaceColonDot_digits M hM,
    replaceColonDot_digits D hD, replaceColonDot_digits h hh,
    replaceColonDot_digits n hn, replaceColonDot_digits s hs,
    replaceColonDot_digits f hf]

theorem replaceFirstT_no_T (xs ys : List Char) (h : ∀ c ∈ xs, c ≠ 'T') :
    replaceFirstT (xs ++ 'T' :: ys) = xs ++ '_' :: ys := by
  induction xs with
  | nil => simp [replaceFirstT]
  | cons c rest ih =>
      have hc : c ≠ 'T' := h c (by simp)
      simp [replaceFirstT, hc, ih fun d hd => h d (by simp [hd])]

theorem sliceDropLast_append (a b : List Char) (hb : b.length = 5) :
    sliceDropLast 5 (a ++ b) = a := by
  rw [sliceDropLast, List.length_append, hb,
    show a.length + 5 - 5 = a.length from by omega]
  exact List.take_left a b

theorem mem_date_part {c : Char} {Y M D : List Char}
    (hc : c ∈ Y ++ '-' :: M ++ '-' :: D) :
    c ∈ Y ∨ c = '-' ∨ c ∈ M ∨ c ∈ D := by
  simp only [List.mem_append, List.mem_cons] at hc
  tauto

theorem isoToTimestamp_isoOf (Y M D h n s f : List Char)
    (hY : Y.all isDigitChar = true) (hM : M.all isDigitChar = true)
    (hD : D.all isDigitChar = true) (hh : h.all isDigitChar = true)
    (hn : n.all isDigitChar = true) (hs : s.all isDigitChar = true)
    (hf : f.all isDigitChar = true) (hfl : f.length = 3) :
    isoToTimestamp (isoOf Y M D h n s f) =
      Y ++ '-' :: M ++ '-' :: D ++ '_' :: h ++ '-' :: n ++ '-' :: s := by
  rw [isoToTimestamp, replaceColonDot_isoOf Y M D h n s f hY hM hD hh hn hs hf]
  have hmemT : ∀ c ∈ Y ++ '-' :: M ++ '-' :: D, c ≠ 'T' := by
    intro c hc
    rcases mem_date_part hc with hc | hc | hc | hc
    · exact digit_ne_T c ((List.all_eq_true.mp hY) c hc)
    · subst hc; decide
    · exact digit_ne_T c ((List.all_eq_true.mp hM) c hc)
    · exact digit_ne_T c ((List.all_eq_true.mp hD) c hc)
  have hstep := replaceFirstT_no_T (Y ++ '-' :: M ++ '-' :: D)
    (h ++ '-' :: n ++ '-' :: s ++ '-' :: f ++ ['Z']) hmemT
  rw [show Y ++ '-' :: M ++ '-' :: D ++ 'T' :: h ++ '-' :: n ++ '-' :: s ++
        '-' :: f ++ ['Z'] =
      (Y ++ '-' :: M ++ '-' :: D) ++ 'T' ::
        (h ++ '-' :: n ++ '-' :: s ++ '-' :: f ++ ['Z']) from by
    simp, hstep]
  have hsplit : (Y ++ '-' :: M ++ '-' :: D) ++ '_' ::
        (h ++ '-' :: n ++ '-' :: s ++ '-' :: f ++ ['Z']) =
      (Y ++ '-' :: M ++ '-' :: D ++ '_' :: h ++ '-' :: n ++ '-' :: s) ++
        ('-' :: f ++ ['Z']) := by
    simp
  rw [hsplit, sliceDropLast_append _ _ (by simp [hfl])]

end DatabaseBackupService

namespace DatabaseBackupService

theorem sanitizeName_eq_self (p : List Char)
    (h : ∀ c ∈ p, isPlainNameChar c = true) : sanitizeName p = p := by
  induction p with
  | nil => rfl
  | cons c rest ih =>
      have hc := h c (by simp)
      simp only [isPlainNameChar, Bool.and_eq_true] at hc
      simp [sanitizeName] at ih ⊢
      exact ⟨by simp [hc.1], ih fun d hd => h d (by simp [hd])⟩

theorem underscore_not_mem (p : List Char)
    (h : ∀ c ∈ p, isPlainNameChar c = true) : '_' ∉ p := by
  intro hmem
  have := h '_' hmem
  simp [isPlainNameChar] at this

theorem underscore_split (xs1 : List Char) (ys1 : List Char)
    (xs2 ys2 : List Char) (h1 : '_' ∉ xs1) (h2 : '_' ∉ xs2)
    (he : xs1 ++ '_' :: ys1 = xs2 ++ '_' :: ys2) : xs1 = xs2 ∧ ys1 = ys2 := by
  induction xs1 generalizing xs2 with
  | nil =>
      cases xs2 with
      | nil => simpa using he
      | cons d ds =>
          simp only [List.nil_append, List.cons_append, List.cons.injEq] at he
          exact absurd (he.1 ▸ List.mem_cons_self d ds) h2
  | cons c cs ih =>
      cases xs2 with
      | nil =>
          simp only [List.nil_append, List.cons_append, List.cons.injEq] at he
          exact absurd (he.1 ▸ List.mem_cons_self c cs) h1
      | cons d ds =>
          simp only [List.cons_append, List.cons.injEq] at he
          have h1t : '_' ∉ cs := fun hm => h1 (List.mem_cons_of_mem c hm)
          have h2t : '_' ∉ ds := fun hm => h2 (List.mem_cons_of_mem d hm)
          obtain ⟨hcs, hys⟩ := ih ds h1t h2t he.2
          exact ⟨by rw [he.1, hcs], hys⟩

theorem forall_mem_of_append {P : Char → Prop} {a b : List Char}
    (ha : ∀ c ∈ a, P c) (hb : ∀ c ∈ b, P c) : ∀ c ∈ a ++ b, P c :=
  fun c hc => (List.mem_append.mp hc).elim (ha c) (hb c)

theorem forall_mem_of_cons {P : Char → Prop} {x : Char} {a : List Char}
    (hx : P x) (ha : ∀ c ∈ a, P c) : ∀ c ∈ x :: a, P c :=
  fun c hc => (List.mem_cons.mp hc).elim (fun h => h ▸ hx) (ha c)

theorem isoToTimestamp_length (iso : List Char) (hw : WellFormedIso iso) :
    (isoToTimestamp iso).length = 19 := by
  obtain ⟨Y, M, D, h, n, s, f, hiso, hY, hM, hD, hh, hn, hs, hf,
    hYl, hMl, hDl, hhl, hnl, hsl, hfl⟩ := hw
  rw [hiso, isoToTimestamp_isoOf Y M D h n s f hY hM hD hh hn hs hf hfl]
  simp [hYl, hMl, hDl, hhl, hnl, hsl]

theorem isoToTimestamp_chars (iso : List Char) (hw : WellFormedIso iso) :
    ∀ c ∈ isoToTimestamp iso, isDigitChar c = true ∨ c = '-' ∨ c = '_' := by
  obtain ⟨Y, M, D, h, n, s, f, hiso, hY, hM, hD, hh, hn, hs, hf,
    hYl, hMl, hDl, hhl, hnl, hsl, hfl⟩ := hw
  rw [hiso, isoToTimestamp_isoOf Y M D h n s f hY hM hD hh hn hs hf hfl]
  have dig : ∀ l : List Char, l.all isDigitChar = true →
      ∀ c ∈ l, isDigitChar c = true ∨ c = '-' ∨ c = '_' :=
    fun l hl c hc => Or.inl ((List.all_eq_true.mp hl) c hc)
  have dash : isDigitChar '-' = true ∨ '-' = '-' ∨ '-' = '_' := by simp
  have us : isDigitChar '_' = true ∨ '_' = '-' ∨ '_' = '_' := by simp
  exact forall_mem_of_append (forall_mem_of_append (forall_mem_of_append
    (forall_mem_of_append (forall_mem_of_append (dig Y hY)
      (forall_mem_of_cons dash (dig M hM)))
      (forall_mem_of_cons dash (dig D hD)))
      (forall_mem_of_cons us (dig h hh)))
      (forall_mem_of_cons dash (dig n hn)))
      (forall_mem_of_cons dash (dig s hs))

theorem sanitizeName_chars (p : List Char) :
    ∀ c ∈ sanitizeName p, isSafeFilenameChar c = true := by
  intro c hc
  obtain ⟨x, _, hx⟩ := List.mem_map.mp hc
  by_cases hsafe : isSafeFilenameChar x = true
  · rw [← hx, if_pos hsafe]; exact hsafe
  · rw [← hx, if_neg hsafe]; decide

end DatabaseBackupService

/-- C6 amended: the claim's character-set half holds unconditionally —
every filename `generateBackupFileName` produces from a `toISOString`
timestamp contains only characters in `[A-Za-z0-9_-.]` — but injectivity
holds only for project and branch names over `[A-Za-z0-9-]` (names the
sanitizer keeps unchanged and that contain no underscore): such inputs
differing in project name, branch name, or second-granularity timestamp
give distinct filenames.  For names outside that class the sanitizer
collapses distinct inputs (see the counterexample). -/
theorem c6_filename_injective_on_plain_names_and_charset :
    (∀ (p1 b1 iso1 p2 b2 iso2 : List Char) (cf : Bool),
      (∀ c ∈ p1, DatabaseBackupService.isPlainNameChar c = true) →
      (∀ c ∈ b1, DatabaseBackupService.isPlainNameChar c = true) →
      (∀ c ∈ p2, DatabaseBackupService.isPlainNameChar c = true) →
      (∀ c ∈ b2, DatabaseBackupService.isPlainNameChar c = true) →
      DatabaseBackupService.WellFormedIso iso1 →
      DatabaseBackupService.WellFormedIso iso2 →
      DatabaseBackupService.generateBackupFileName p1 b1 iso1 cf =
        DatabaseBackupService.generateBackupFileName p2 b2 iso2 cf →
      p1 = p2 ∧ b1 = b2 ∧
        DatabaseBackupService.isoToTimestamp iso1 =
          DatabaseBackupService.isoToTimestamp iso2) ∧
    (∀ (p b iso : List Char) (cf : Bool),
      DatabaseBackupService.WellFormedIso iso →
      ∀ c ∈ DatabaseBackupService.generateBackupFileName p b iso cf,
        DatabaseBackupService.isAllowedFilenameChar c = true) := by
  constructor
  · intro p1 b1 iso1 p2 b2 iso2 cf hp1 hb1 hp2 hb2 hw1 hw2 heq
    have hl1 := DatabaseBackupService.isoToTimestamp_length iso1 hw1
    have hl2 := DatabaseBackupService.isoToTimestamp_length iso2 hw2
    rw [DatabaseBackupService.generateBackupFileName,
      DatabaseBackupService.generateBackupFileName,
      DatabaseBackupService.sanitizeName_eq_self p1 hp1,
      DatabaseBackupService.sanitizeName_eq_self b1 hb1,
      DatabaseBackupService.sanitizeName_eq_self p2 hp2,
      DatabaseBackupService.sanitizeName_eq_self b2 hb2] at heq
    simp only [List.append_assoc, List.cons_append] at heq
    obtain ⟨hp, hrest⟩ := DatabaseBackupService.underscore_split p1 _ p2 _
      (DatabaseBackupService.underscore_not_mem p1 hp1)
      (DatabaseBackupService.underscore_not_mem p2 hp2) heq
    obtain ⟨hb, hrest2⟩ := DatabaseBackupService.underscore_split b1 _ b2 _
      (DatabaseBackupService.underscore_not_mem b1 hb1)
      (DatabaseBackupService.underscore_not_mem b2 hb2) hrest
    exact ⟨hp, hb, (List.append_inj hrest2 (hl1.trans hl2.symm)).1⟩
  · intro p b iso cf hw c hc
    rw [DatabaseBackupService.generateBackupFileName] at hc
    simp only [List.mem_append, List.mem_cons] at hc
    have hcanon : c ∈ DatabaseBackupService.sanitizeName p ∨
        c ∈ DatabaseBackupService.sanitizeName b ∨
        c ∈ DatabaseBackupService.isoToTimestamp iso ∨
        c = '_' ∨ c = '.' ∨
        c ∈ (if cf then ['d', 'u', 'm', 'p'] else ['s', 'q', 'l']) := by
      tauto
    rcases hcanon with hm | hm | hm | hm | hm | hm
    · have := DatabaseBackupService.sanitizeName_chars p c hm
      simp [DatabaseBackupService.isAllowedFilenameChar, this]
    · have := DatabaseBackupService.sanitizeName_chars b c hm
      simp [DatabaseBackupService.isAllowedFilenameChar, this]
    · rcases DatabaseBackupService.isoToTimestamp_chars iso hw c hm with
        hd | hd | hd
      · simp [DatabaseBackupService.isAllowedFilenameChar,
          DatabaseBackupService.digit_safe c hd]
      · subst hd; decide
      · subst hd; decide
    · subst hm; decide
    · subst hm; decide
    · cases cf with
      | false =>
          simp only [if_neg (by decide : ¬False), List.mem_cons] at hm
          simp only [Bool.false_eq_true, if_false, List.mem_cons,
            List.not_mem_nil, or_false] at hm
          rcases hm with rfl | rfl | rfl <;> decide
      | true =>
          simp only [if_pos, List.mem_cons, List.not_mem_nil, or_false] at hm
          rcases hm with rfl | rfl | rfl | rfl <;> decide

/-- The concrete `toISOString` output `2025-01-02T03:04:05.678Z` used by
the C6 witness. -/
def c6WitnessIso : List Char :=
  DatabaseBackupService.isoOf ['2', '0', '2', '5'] ['0', '1'] ['0', '2']
    ['0', '3'] ['0', '4'] ['0', '5'] ['6', '7', '8']

/-- C6 witness: the amended theorem applied at plain names and a concrete
well-formed ISO timestamp, discharging every hypothesis there. -/
theorem c6_filename_witness :
    (∀ c ∈ (['a'] : List Char),
      DatabaseBackupService.isPlainNameChar c = true) ∧
    DatabaseBackupService.WellFormedIso c6WitnessIso ∧
    ((['a'] : List Char) = ['a'] ∧ (['x'] : List Char) = ['x'] ∧
      DatabaseBackupService.isoToTimestamp c6WitnessIso =
        DatabaseBackupService.isoToTimestamp c6WitnessIso) ∧
    (∀ c ∈ DatabaseBackupService.generateBackupFileName ['a'] ['x']
        c6WitnessIso false,
      DatabaseBackupService.isAllowedFilenameChar c = true) := by
  have hwf : DatabaseBackupService.WellFormedIso c6WitnessIso :=
    ⟨['2', '0', '2', '5'], ['0', '1'], ['0', '2'], ['0', '3'], ['0', '4'],
      ['0', '5'], ['6', '7', '8'], rfl, by decide, by decide, by decide,
      by decide, by decide, by decide, by decide, by decide, by decide,
      by decide, by decide, by decide, by decide, by decide⟩
  refine ⟨by decide, hwf, ?_, ?_⟩
  · exact c6_filename_injective_on_plain_names_and_charset.1 ['a'] ['x']
      c6WitnessIso ['a'] ['x'] c6WitnessIso false (by decide) (by decide)
      (by decide) (by decide) hwf hwf rfl
  · exact c6_filename_injective_on_plain_names_and_charset.2 ['a'] ['x']
      c6WitnessIso false hwf
